import Mathlib

/-!
Shallow embedding of the content-mapping and caching layer of the
`a-demain` static blog generator (files `src/lib/notion.ts`,
`src/lib/notion-helpers.ts`, and the pageId→slug map module).

JavaScript runtime values that flow through the property mapper are
modelled by the inductive `PropValue`; JS truthiness by `jsTruthy`;
`Map` objects by functions `String → Option _`; thrown errors by
`Except`; `console.warn` / `console.error` output by an explicit list
of `LogEntry` values returned alongside the result.
-/

/-- One element of a Notion rich-text array: only its `plain_text`
field is ever read by this layer. -/
structure RichTextItem where
  plain_text : String
deriving DecidableEq, Repr

/-- A select / multi-select / status option object: only `.name` is read. -/
structure SelectOption where
  name : String
deriving DecidableEq, Repr

/-- A date property object: `property.date?.start || null`. -/
structure RawDate where
  start : Option String
deriving DecidableEq, Repr

/-- A file entry of a `files` property.  `external u` is a file object with
`type === "external"` and `external.url = u`; `internalFile u` is any other
file object, whose `file?.url` is `u` when present. -/
inductive RawFile where
  | external (url : String)
  | internalFile (fileUrl : Option String)
deriving DecidableEq, Repr

/-- An opaque person object of a `people` property (never inspected). -/
structure PersonRef where
  pid : String
deriving DecidableEq, Repr

/-- A raw Notion property object, as accessed by `getPropertyValue`.
Each field models the presence/absence of the JS field of the same name:
`none` is JS `undefined`/`null`. -/
structure RawProperty where
  title : Option (List RichTextItem) := none
  rich_text : Option (List RichTextItem) := none
  status : Option SelectOption := none
  select : Option SelectOption := none
  multi_select : Option (List SelectOption) := none
  date : Option RawDate := none
  checkbox : Option Bool := none
  number : Option Int := none
  url : Option String := none
  email : Option String := none
  phone_number : Option String := none
  files : Option (List RawFile) := none
  people : Option (List PersonRef) := none
  created_time : Option String := none
  last_edited_time : Option String := none
deriving DecidableEq, Repr

/-- The JS values `getPropertyValue` can return (its TS return type is `any`). -/
inductive PropValue where
  | str (s : String)
  | strList (xs : List String)
  | bool (b : Bool)
  | num (n : Int)
  | people (xs : List PersonRef)
  | null
deriving DecidableEq, Repr

/-- JavaScript truthiness of a `PropValue`: arrays and objects are always
truthy, the empty string, `false`, `0` and `null` are falsy. -/
def jsTruthy : PropValue → Bool
  | .str s => s ≠ ""
  | .strList _ => true
  | .bool b => b
  | .num n => n ≠ 0
  | .people _ => true
  | .null => false

/-- JS `a || b` on property values. -/
def jsOr (a b : PropValue) : PropValue :=
  if jsTruthy a then a else b

/-- `getPlainTextFromRichText` (notion.ts): `""` when the argument is not an
array, else the concatenation of all `plain_text` fields. -/
def getPlainTextFromRichText : Option (List RichTextItem) → String
  | none => ""
  | some richText => String.join (richText.map (fun t => t.plain_text))

/-- `getPropertyValue` (notion.ts): extracts a normalized value from a raw
property given a type tag.  `none` models a falsy (`undefined`/`null`)
`property` argument. -/
def getPropertyValue (property : Option RawProperty) (type : String) : PropValue :=
  match property with
  | none =>
    match type with
    | "multi_select" => .strList []
    | "checkbox" => .bool false
    | "number" => .null
    | _ => .str ""
  | some p =>
    match type with
    | "title" => .str (getPlainTextFromRichText p.title)
    | "rich_text" => .str (getPlainTextFromRichText p.rich_text)
    | "status" =>
      match p.status with
      | some o => .str o.name
      | none => .str ""
    | "select" =>
      match p.select with
      | some o => .str o.name
      | none => .str ""
    | "multi_select" =>
      match p.multi_select with
      | some opts => .strList (opts.map (fun s => s.name))
      | none => .strList []
    | "date" =>
      match p.date with
      | some d =>
        match d.start with
        | some s => if s = "" then .null else .str s
        | none => .null
      | none => .null
    | "checkbox" =>
      match p.checkbox with
      | some b => .bool b
      | none => .bool false
    | "number" =>
      match p.number with
      | some n => .num n
      | none => .null
    | "url" => .str ((p.url).getD "")
    | "email" => .str ((p.email).getD "")
    | "phone_number" => .str ((p.phone_number).getD "")
    | "files" =>
      match p.files with
      | some (f :: _) =>
        match f with
        | .external u => .str u
        | .internalFile fu => .str (fu.getD "")
      | some [] => .str ""
      | none => .str ""
    | "people" =>
      match p.people with
      | some xs => .people xs
      | none => .people []
    | "created_time" =>
      match p.created_time with
      | some s => if s = "" then .null else .str s
      | none => .null
    | "last_edited_time" =>
      match p.last_edited_time with
      | some s => if s = "" then .null else .str s
      | none => .null
    | _ => .str ""

/-- The type tags recognized by `getPropertyValue`'s main switch. -/
def recognizedTags : List String :=
  ["title", "rich_text", "status", "select", "multi_select", "date",
   "checkbox", "number", "url", "email", "phone_number", "files",
   "people", "created_time", "last_edited_time"]

/-- The default values the spec claims for a null/absent property:
empty string for text-likes, empty list for multi-select, `false` for
checkbox, `null` for number and date. -/
def specClaimedDefault (type : String) : PropValue :=
  if type = "multi_select" then .strList []
  else if type = "checkbox" then .bool false
  else if type = "number" ∨ type = "date" then .null
  else .str ""

/-- The defaults the code actually yields for a null/absent property:
as the spec claims, except that `date` falls into the catch-all
empty-string case (only `number` maps to `null`). -/
def codeNullDefault (type : String) : PropValue :=
  if type = "multi_select" then .strList []
  else if type = "checkbox" then .bool false
  else if type = "number" then .null
  else .str ""

/-- The content object `block[block.type]` of a Notion block; each field is
`none` when the corresponding JS field is absent. -/
structure BlockContent where
  rich_text : Option (List RichTextItem) := none
  url : Option String := none
  title : Option String := none
  external_url : Option String := none
  file_url : Option String := none
  caption : Option (List RichTextItem) := none
  expression : Option String := none
  table_width : Option Int := none
deriving DecidableEq, Repr

/-- A Notion block as returned by `getPageBlocks`: identifier, type tag,
`has_children`, the content object stored under the key equal to the type
tag (`none` when absent), and the recursively fetched children. -/
inductive NotionBlock where
  | mk (id : String) (btype : String) (has_children : Bool)
       (content : Option BlockContent) (children : List NotionBlock)

def NotionBlock.id : NotionBlock → String
  | .mk i _ _ _ _ => i

def NotionBlock.btype : NotionBlock → String
  | .mk _ t _ _ _ => t

def NotionBlock.has_children : NotionBlock → Bool
  | .mk _ _ h _ _ => h

def NotionBlock.content : NotionBlock → Option BlockContent
  | .mk _ _ _ c _ => c

def NotionBlock.children : NotionBlock → List NotionBlock
  | .mk _ _ _ _ ch => ch

/-- `getMediaSourceText` (notion.ts): source URL of a media block, prefixed
by its caption text when a non-empty caption is present. -/
def getMediaSourceText (b : NotionBlock) : String :=
  match b.content with
  | none => ""
  | some c =>
    let source :=
      match c.external_url with
      | some u => u
      | none =>
        match c.file_url with
        | some u => u
        | none => (c.url).getD ""
    match c.caption with
    | some cap =>
      if cap.length > 0 then
        let captext := getPlainTextFromRichText (some cap)
        if captext ≠ "" then captext ++ ": " ++ source else source
      else source
    | none => source

/-- The stringification JS performs on `block.table?.table_width` inside a
template literal: the number, or `"undefined"` when absent. -/
def tableWidthText (b : NotionBlock) : String :=
  match b.content with
  | none => "undefined"
  | some c =>
    match c.table_width with
    | some n => toString n
    | none => "undefined"

/-- The `switch (block.type)` fallback of `getTextFromBlock` for block types
without a `rich_text` field. -/
def blockTypeSwitchText (b : NotionBlock) : String :=
  match b.btype with
  | "bookmark" => ((b.content.bind (fun c => c.url)).getD "")
  | "child_database" => ((b.content.bind (fun c => c.title)).getD "")
  | "child_page" => ((b.content.bind (fun c => c.title)).getD "")
  | "embed" => getMediaSourceText b
  | "video" => getMediaSourceText b
  | "file" => getMediaSourceText b
  | "image" => getMediaSourceText b
  | "pdf" => getMediaSourceText b
  | "equation" => ((b.content.bind (fun c => c.expression)).getD "")
  | "link_preview" => ((b.content.bind (fun c => c.url)).getD "")
  | "table" => "Table (" ++ tableWidthText b ++ " columns)"
  | "table_of_contents" => "Table of Contents"
  | "divider" => ""
  | "breadcrumb" => ""
  | "column_list" => ""
  | "unsupported" => "[Unsupported block type]"
  | _ => ""

/-- `getTextFromBlock` (notion.ts): plain text of a block.  `none` models a
falsy `block` argument.  When `block[block.type]?.rich_text` exists (even as
an empty array, which is truthy in JS) its joined plain text is returned,
otherwise the per-type switch decides. -/
def getTextFromBlock : Option NotionBlock → String
  | none => ""
  | some b =>
    match b.content with
    | some c =>
      match c.rich_text with
      | some rt => getPlainTextFromRichText (some rt)
      | none => blockTypeSwitchText b
    | none => blockTypeSwitchText b

/-- `blocksToPlainText` (notion-helpers.ts): map each block to its text,
drop blocks whose text is blank, join with single spaces, and truncate to
`maxLength` characters plus `"..."` when a truthy `maxLength` is given and
exceeded (`none` models an omitted or zero `maxLength`; JS `0` is falsy, so
it is modelled as `none`-like by the `m ≠ 0` guard). -/
def blocksToPlainText (blocks : List NotionBlock) (maxLength : Option Nat) : String :=
  let text := String.intercalate " "
    ((blocks.map (fun block => getTextFromBlock (some block))).filter
      (fun t => t.trim ≠ ""))
  match maxLength with
  | some m => if m ≠ 0 ∧ text.length > m then (text.take m).push '.' ++ ".." else text
  | none => text

/-- The characters matched by the JS regex character class `\s` (the ASCII
ones; this layer only ever produces ASCII whitespace). -/
def isJsWs (c : Char) : Bool :=
  c = ' ' ∨ c = '\t' ∨ c = '\n' ∨ c = '\r' ∨ c = '\x0b' ∨ c = '\x0c'

mutual

/-- Together with `splitWsSkip`, models JS `text.split(/\s+/)`:
`splitWsGo` consumes a (possibly empty) token accumulated in `acc`;
hitting whitespace emits the token and hands the rest to `splitWsSkip`. -/
def splitWsGo : List Char → List Char → List (List Char)
  | [], acc => [acc.reverse]
  | c :: rest, acc =>
    if isJsWs c then acc.reverse :: splitWsSkip rest
    else splitWsGo rest (c :: acc)

/-- Skips the remainder of a maximal whitespace run; a run that reaches the
end of the string leaves a final empty token, exactly as JS `split` does. -/
def splitWsSkip : List Char → List (List Char)
  | [] => [[]]
  | c :: rest =>
    if isJsWs c then splitWsSkip rest
    else splitWsGo rest [c]

end

/-- JS `s.split(/\s+/)`: the substrings between maximal whitespace runs.
Note `jsSplitWs "" = [""]` (length 1), and a leading or trailing run
contributes an empty element — faithful to ECMAScript `String.split`. -/
def jsSplitWs (s : String) : List String :=
  (splitWsGo s.toList []).map (fun cs => String.mk cs)

/-- The number of elements JS `text.split(/\s+/)` yields: the word count
actually used by `getReadingTime`. -/
def jsWordCount (s : String) : Nat :=
  (jsSplitWs s).length

/-- Word count in the sense of the spec's words: the number of (non-empty)
whitespace-separated words of the text, which is `0` for empty text. -/
def specWordCount (s : String) : Nat :=
  ((jsSplitWs s).filter (fun w => w ≠ "")).length

/-- A table-of-contents entry: block identifier, heading level, text. -/
structure TocEntry where
  id : String
  level : Nat
  text : String
deriving DecidableEq, Repr

/-- JS `string.split("_")`: splits at every underscore occurrence
(consecutive separators yield empty segments). -/
def splitOnUnderscore : List Char → List (List Char)
  | [] => [[]]
  | c :: rest =>
    if c = '_' then [] :: splitOnUnderscore rest
    else
      match splitOnUnderscore rest with
      | seg :: segs => (c :: seg) :: segs
      | [] => [[c]]

/-- The value of the leading decimal digits of a character list. -/
def digitsVal : List Char → Nat → Nat
  | [], acc => acc
  | c :: rest, acc =>
    if c.isDigit then digitsVal rest (acc * 10 + (c.toNat - 48)) else acc

/-- JS `Number.parseInt` on a string of characters, restricted to
non-negative results: the value of the leading digit run, `none` (JS `NaN`)
when the string does not start with a digit. -/
def jsParseIntNat (l : List Char) : Option Nat :=
  match l with
  | c :: _ => if c.isDigit then some (digitsVal l 0) else none
  | [] => none

/-- `Number.parseInt(block.type.split("_")[1])` for the heading types;
a non-numeric or missing segment (JS `NaN`) is modelled as `0`, which no
heading type produces. -/
def headingLevelOf (t : String) : Nat :=
  (jsParseIntNat ((splitOnUnderscore t.toList).getD 1 [])).getD 0

/-- `block.type === "heading_1" || block.type === "heading_2" ||
block.type === "heading_3"`. -/
def isHeadingType (t : String) : Bool :=
  t = "heading_1" ∨ t = "heading_2" ∨ t = "heading_3"

/-- The two module-level caches of notion-helpers.ts, each modelled as a
lookup function (`none` = key absent from the `Map`). -/
structure HelperState where
  readingTimeCache : String → Option Nat
  tableOfContentsCache : String → Option (List TocEntry)

/-- The state at module load: both caches empty. -/
def initHelperState : HelperState :=
  { readingTimeCache := fun _ => none, tableOfContentsCache := fun _ => none }

/-- Result of a `getReadingTime` call: returned value, cache state after the
call, and whether `getPageBlocks` was invoked during the call. -/
structure ReadingTimeResult where
  val : Nat
  state : HelperState
  fetched : Bool

/-- Result of a `getTableOfContents` call, instrumented the same way. -/
structure TocResult where
  val : List TocEntry
  state : HelperState
  fetched : Bool

/-- `getReadingTime` (notion-helpers.ts).  `fetch` stands for
`getPageBlocks`: the full nested content tree for an identifier.  On a
cache hit under `useCache` the stored value is returned without fetching;
otherwise the tree is fetched, flattened by `blocksToPlainText`, split on
whitespace, and `Math.ceil(words / 200)` is cached and returned. -/
def getReadingTime (fetch : String → List NotionBlock) (postId : String)
    (useCache : Bool) (st : HelperState) : ReadingTimeResult :=
  match useCache, st.readingTimeCache postId with
  | true, some t => ⟨t, st, false⟩
  | _, _ =>
    let blocks := fetch postId
    let text := blocksToPlainText blocks none
    let words := (jsSplitWs text).length
    let time := (words + 199) / 200
    ⟨time,
     { st with readingTimeCache :=
         fun k => if k = postId then some time else st.readingTimeCache k },
     true⟩

/-- `getTableOfContents` (notion-helpers.ts): filters the top-level block
list for the three heading types and maps each to a `TocEntry` whose level
is parsed from the type tag; the result is cached under the identifier. -/
def getTableOfContents (fetch : String → List NotionBlock) (postId : String)
    (useCache : Bool) (st : HelperState) : TocResult :=
  match useCache, st.tableOfContentsCache postId with
  | true, some toc => ⟨toc, st, false⟩
  | _, _ =>
    let blocks := fetch postId
    let toc := (blocks.filter (fun block => isHeadingType block.btype)).map
      (fun block =>
        { id := block.id
          level := headingLevelOf block.btype
          text := getTextFromBlock (some block) })
    ⟨toc,
     { st with tableOfContentsCache :=
         fun k => if k = postId then some toc else st.tableOfContentsCache k },
     true⟩

mutual

/-- All blocks of a content tree in document order: each block followed by
its recursively flattened children (the "flattened content tree" of the
spec's wording). -/
def flattenBlock : NotionBlock → List NotionBlock
  | .mk i t h c ch => .mk i t h c ch :: flattenForest ch

/-- Flattens a list of content trees in order. -/
def flattenForest : List NotionBlock → List NotionBlock
  | [] => []
  | b :: bs => flattenBlock b ++ flattenForest bs

end

/-- The heading entries (levels 1–3) of a block list, in order, written out
with explicit numeric levels, following the spec's description of the table
of contents. -/
def headingEntriesOf (blocks : List NotionBlock) : List TocEntry :=
  blocks.foldr
    (fun b rest =>
      (if b.btype = "heading_1" then [⟨b.id, 1, getTextFromBlock (some b)⟩]
       else if b.btype = "heading_2" then [⟨b.id, 2, getTextFromBlock (some b)⟩]
       else if b.btype = "heading_3" then [⟨b.id, 3, getTextFromBlock (some b)⟩]
       else []) ++ rest)
    []

/-- The spec's reading of `getTableOfContents`: the heading entries of the
whole flattened content tree. -/
def specFlattenedHeadings (blocks : List NotionBlock) : List TocEntry :=
  headingEntriesOf (flattenForest blocks)

/-- A raw page of a query response: `page.id` plus the `page.properties`
object, modelled as a lookup from property names. -/
structure RawPage where
  id : String
  properties : String → Option RawProperty

/-- The runtime shape of a mapped post.  The TS interface declares `string`
etc. for each field, but the object is built by `getPropertyValue` and only
cast (`as BlogPost`), so each field really holds whatever `getPropertyValue`
returned; the model keeps those `PropValue`s. -/
structure BlogPost where
  id : String
  title : PropValue
  slug : PropValue
  status : PropValue
  publishedDate : PropValue
  updatedDate : PropValue
  category : PropValue
  tags : PropValue
  description : PropValue
  coverImage : PropValue
  featured : PropValue
  seoTitle : PropValue
  seoKeywords : PropValue
deriving DecidableEq, Repr

/-- The page-to-post object literal shared by `getAllPosts` and
`getPostBySlug` (notion.ts). -/
def mkPost (page : RawPage) : BlogPost :=
  { id := page.id
    title := getPropertyValue (page.properties "Title") "title"
    slug := getPropertyValue (page.properties "Slug") "rich_text"
    status := getPropertyValue (page.properties "Status") "status"
    publishedDate := getPropertyValue (page.properties "Published Date") "date"
    updatedDate := getPropertyValue (page.properties "Updated Date") "date"
    category := getPropertyValue (page.properties "Category") "select"
    tags := getPropertyValue (page.properties "Tags") "multi_select"
    description := getPropertyValue (page.properties "Description") "rich_text"
    coverImage := getPropertyValue (page.properties "Cover Image") "url"
    featured := getPropertyValue (page.properties "Featured") "checkbox"
    seoTitle := getPropertyValue (page.properties "SEO Title") "rich_text"
    seoKeywords := getPropertyValue (page.properties "SEO Keywords") "multi_select" }

/-- `getAllPosts` (notion.ts), given the query response for the
server-side Published filter and date sort: maps each page to a post. -/
def getAllPostsOf (results : List RawPage) : List BlogPost :=
  results.map mkPost

/-- JS stringification of a `PropValue` inside a template literal (only the
`str` case is ever reached by this layer). -/
def jsToString : PropValue → String
  | .str s => s
  | .strList xs => String.intercalate "," xs
  | .bool b => if b then "true" else "false"
  | .num n => toString n
  | .people _ => "[object Object]"
  | .null => "null"

/-- A console log record: either a `console.warn` message or the structured
`console.error` context of `handleNotionError` (operation, message, code,
status). -/
inductive LogEntry where
  | warn (msg : String)
  | errorCtx (operation : String) (message : String)
      (code : Option String) (status : Option Int)
deriving DecidableEq, Repr

/-- `getPostBySlug` (notion.ts), given the query response for the slug
filter: `null` on an empty result; else the first result is mapped, and
when `requirePublished` holds and its status is not `"Published"` a warning
is logged and `null` is returned instead of the post. -/
def getPostBySlug (results : List RawPage) (slug : String)
    (requirePublished : Bool) : Option BlogPost × List LogEntry :=
  match results with
  | [] => (none, [])
  | page :: _ =>
    let post := mkPost page
    if requirePublished ∧ post.status ≠ PropValue.str "Published" then
      (none,
       [.warn ("Post \"" ++ slug ++ "\" is not published (status: "
           ++ jsToString post.status ++ ")")])
    else
      (some post, [])

/-- `getPostsByCategory` (notion-helpers.ts) over the fetched post list:
`post.category === category`. -/
def getPostsByCategory (posts : List BlogPost) (category : String) : List BlogPost :=
  posts.filter (fun post => post.category = PropValue.str category)

/-- JS `post.tags.includes(tag)`; the mapper always makes `tags` an array. -/
def jsIncludes (v : PropValue) (tag : String) : Bool :=
  match v with
  | .strList xs => xs.contains tag
  | _ => false

/-- `getPostsByTag` (notion-helpers.ts). -/
def getPostsByTag (posts : List BlogPost) (tag : String) : List BlogPost :=
  posts.filter (fun post => jsIncludes post.tags tag)

/-- `getFeaturedPosts` (notion-helpers.ts): `posts.filter(p => p.featured)`. -/
def getFeaturedPosts (posts : List BlogPost) : List BlogPost :=
  posts.filter (fun post => jsTruthy post.featured)

/-- `getRecentPosts` (notion-helpers.ts): `posts.slice(0, limit)`. -/
def getRecentPosts (posts : List BlogPost) (limit : Nat := 5) : List BlogPost :=
  posts.take limit

/-- The SEO metadata record assembled by `getPostSEOMetadata`. -/
structure SEOMetadata where
  title : PropValue
  description : PropValue
  keywords : PropValue
  ogImage : PropValue
  canonical : PropValue
deriving DecidableEq, Repr

/-- `getPostSEOMetadata` (notion-helpers.ts), given the slug-query response:
fetches the post via `getPostBySlug` (with the published requirement) and
combines its fields with site-wide fallbacks through JS `||`. -/
def getPostSEOMetadata (results : List RawPage) (slug siteUrl : String) :
    Option SEOMetadata :=
  match (getPostBySlug results slug true).1 with
  | none => none
  | some post =>
    some
      { title := jsOr post.seoTitle post.title
        description := jsOr post.description (PropValue.str "")
        keywords := jsOr post.seoKeywords post.tags
        ogImage := jsOr post.coverImage (PropValue.str (siteUrl ++ "/og-default.png"))
        canonical := PropValue.str (siteUrl ++ "/posts/" ++ slug) }

/-- The `pageIdToSlugCache` map, as a lookup function (`none` = absent). -/
def SlugMap : Type := String → Option PropValue

/-- The map at module load: empty. -/
def emptySlugMap : SlugMap := fun _ => none

/-- `Map.set` on the slug cache. -/
def slugMapSet (m : SlugMap) (k : String) (v : PropValue) : SlugMap :=
  fun k2 => if k2 = k then some v else m k2

/-- `buildPageIdToSlugMap` (pageId→slug module), given the posts returned by
`getAllPosts()`: `cache.set(post.id, post.slug)` for each post, in order,
over the existing cache contents (the loop never clears the map first). -/
def buildPageIdToSlugMap (posts : List BlogPost) (cache : SlugMap) : SlugMap :=
  posts.foldl (fun c post => slugMapSet c post.id post.slug) cache

/-- `getSlugByPageId`: `pageIdToSlugCache.get(pageId)`. -/
def getSlugByPageId (cache : SlugMap) (pageId : String) : Option PropValue :=
  cache pageId

/-- `clearPageIdMap`: the cache after `pageIdToSlugCache.clear()`. -/
def clearPageIdMap : SlugMap := fun _ => none

/-- The last-bound slug for an identifier among the fetched posts: the slug
of the last post with that id, `none` when no fetched post has it. -/
def lastSlugOf (posts : List BlogPost) (k : String) : Option PropValue :=
  (posts.reverse.find? (fun p => p.id = k)).map (fun p => p.slug)

/-- The error value caught by `handleNotionError`: the Notion client error's
`message`, `code` and `status` fields. -/
structure NotionErrorInfo where
  message : String
  code : Option String
  status : Option Int
deriving DecidableEq, Repr

/-- `handleNotionError` (notion.ts): runs the wrapped operation; a
successful result passes through unmodified, a failure is logged with its
message/code/status and re-thrown as a single `Error` whose message names
the operation and carries the original message. -/
def handleNotionError {α : Type} (operation : String)
    (fn : Except NotionErrorInfo α) : Except String α × List LogEntry :=
  match fn with
  | .ok a => (.ok a, [])
  | .error e =>
    (.error ("Failed to " ++ operation ++ ": " ++ e.message),
     [.errorCtx operation e.message e.code e.status])

/-- Concrete posts used by witnesses below. -/
def postA : BlogPost :=
  { id := "idA", title := .str "A", slug := .str "slug-a", status := .str "Published"
    publishedDate := .str "2024-01-02", updatedDate := .null, category := .str "Tech"
    tags := .strList ["go", "rust"], description := .str "first", coverImage := .str ""
    featured := .bool true, seoTitle := .str "", seoKeywords := .strList [] }

/-- A second concrete post, distinct id and slug. -/
def postB : BlogPost :=
  { id := "idB", title := .str "B", slug := .str "slug-b", status := .str "Published"
    publishedDate := .str "2024-01-01", updatedDate := .null, category := .str "Life"
    tags := .strList ["go"], description := .str "second", coverImage := .str "img"
    featured := .bool false, seoTitle := .str "", seoKeywords := .strList ["kw"] }

/-- A raw query-result page whose Status property is `Draft`. -/
def draftPage : RawPage :=
  { id := "pg-draft"
    properties := fun name =>
      if name = "Status" then some { status := some { name := "Draft" } }
      else if name = "Slug" then
        some { rich_text := some [{ plain_text := "hello" }] }
      else none }

/-- A raw query-result page whose Status property is `Published` and whose
SEO Keywords multi-select is absent (so the mapper defaults it to `[]`). -/
def publishedPage : RawPage :=
  { id := "pg-pub"
    properties := fun name =>
      if name = "Status" then some { status := some { name := "Published" } }
      else if name = "Slug" then
        some { rich_text := some [{ plain_text := "hello" }] }
      else if name = "Tags" then
        some { multi_select := some [{ name := "go" }, { name := "rust" }] }
      else none }

/-- A heading block with the given id, level tag and text. -/
def headingBlock (i lvltype txt : String) : NotionBlock :=
  .mk i lvltype false (some { rich_text := some [{ plain_text := txt }] }) []

/-- A paragraph block. -/
def paragraphBlock (i txt : String) : NotionBlock :=
  .mk i "paragraph" false (some { rich_text := some [{ plain_text := txt }] }) []

/-- The spec's table-of-contents example: one level-1 and two level-2
headings interspersed with paragraph blocks. -/
def blocks122 : List NotionBlock :=
  [headingBlock "h1" "heading_1" "Intro",
   paragraphBlock "p1" "Lorem ipsum",
   headingBlock "h2" "heading_2" "Part one",
   paragraphBlock "p2" "dolor sit",
   headingBlock "h3" "heading_2" "Part two"]

/-- A content tree whose only heading sits inside the children of a
top-level toggle block. -/
def nestedHeadingBlocks : List NotionBlock :=
  [.mk "t1" "toggle" true (some { rich_text := some [{ plain_text := "More" }] })
     [headingBlock "hn" "heading_1" "Hidden"]]

theorem splitWsGo_length_pos (l : List Char) : ∀ acc, 0 < (splitWsGo l acc).length := by
  induction l with
  | nil => intro acc; simp [splitWsGo]
  | cons c rest ih =>
    intro acc
    simp only [splitWsGo]
    split
    · simp
    · exact ih _

theorem one_le_jsWordCount (s : String) : 1 ≤ jsWordCount s := by
  have h := splitWsGo_length_pos s.toList []
  simpa [jsWordCount, jsSplitWs] using h

theorem buildPageIdToSlugMap_lookup (posts : List BlogPost) (cache : SlugMap)
    (k : String) :
    buildPageIdToSlugMap posts cache k = (lastSlugOf posts k).or (cache k) := by
  induction posts generalizing cache with
  | nil => simp [buildPageIdToSlugMap, lastSlugOf]
  | cons p ps ih =>
    have step : buildPageIdToSlugMap (p :: ps) cache =
        buildPageIdToSlugMap ps (slugMapSet cache p.id p.slug) := rfl
    rw [step, ih]
    simp only [lastSlugOf, List.reverse_cons, List.find?_append]
    cases hfind : ps.reverse.find? (fun q => q.id = k) with
    | some q => simp [hfind, Option.or]
    | none =>
      simp only [hfind, List.find?, Option.or]
      by_cases hk : p.id = k
      · simp [hk, slugMapSet, Option.or]
      · have hk2 : ¬ k = p.id := fun h => hk h.symm
        simp [hk, hk2, slugMapSet, Option.or]

theorem find?_id_eq_of_nodup (l : List BlogPost) (k : String)
    (hnd : (l.map (fun p => p.id)).Nodup) (p : BlogPost) (hp : p ∈ l)
    (hk : p.id = k) : l.find? (fun q => q.id = k) = some p := by
  induction l with
  | nil => simp at hp
  | cons a t ih =>
    simp only [List.map_cons, List.nodup_cons] at hnd
    rcases List.mem_cons.mp hp with rfl | hpt
    · simp [List.find?, hk]
    · have hak : ¬ (a.id = k) := by
        intro ha
        exact hnd.1 (by simpa [ha, ← hk] using List.mem_map_of_mem (fun q => q.id) hpt)
      have hdec : (decide (a.id = k)) = false := decide_eq_false hak
      simp only [List.find?, hdec]
      exact ih hnd.2 hpt

/-- C1: the claim that `buildPageIdToSlugMap` fully replaces the previous
contents of the id→slug mapping — for every prior cache state the mapping
afterwards holds exactly the pairs of the fetched posts and nothing left
over — is false: the loop only `set`s entries and never clears the map, so
a pre-existing entry whose id is not among the fetched posts survives.
Refuted with prior cache containing an entry for id `x` and an empty fetch. -/
theorem C1_counterexample :
    ¬ (∀ (cache : SlugMap) (posts : List BlogPost) (k : String),
        getSlugByPageId (buildPageIdToSlugMap posts cache) k = lastSlugOf posts k) := by
  intro h
  have h0 := h (slugMapSet emptySlugMap "x" (PropValue.str "old")) [] "x"
  simp [getSlugByPageId, buildPageIdToSlugMap, lastSlugOf, slugMapSet,
    emptySlugMap] at h0

/-- C1 (amended): `buildPageIdToSlugMap` merges, rather than replaces: after
the call, an identifier maps to the slug of the last fetched post carrying
it, and an identifier not carried by any fetched post keeps whatever the
prior cache held for it (in particular stale entries are NOT removed). -/
theorem C1_theorem (posts : List BlogPost) (cache : SlugMap) (k : String) :
    getSlugByPageId (buildPageIdToSlugMap posts cache) k =
      (lastSlugOf posts k).or (cache k) :=
  buildPageIdToSlugMap_lookup posts cache k

/-- C7: building the index from the module-initial (empty) cache, the slug
resolver returns the slug of the post carrying an identifier present in the
fetched set (unique ids), `undefined` for an identifier absent from that
set, and `undefined` for everything after `clearPageIdMap`. -/
theorem C7_theorem (posts : List BlogPost) (k : String)
    (hnd : (posts.map (fun p => p.id)).Nodup) :
    (∀ p ∈ posts, p.id = k →
      getSlugByPageId (buildPageIdToSlugMap posts emptySlugMap) k = some p.slug) ∧
    ((∀ p ∈ posts, p.id ≠ k) →
      getSlugByPageId (buildPageIdToSlugMap posts emptySlugMap) k = none) ∧
    getSlugByPageId clearPageIdMap k = none := by
  refine ⟨?_, ?_, rfl⟩
  · intro p hp hk
    have hrev : posts.reverse.find? (fun q => q.id = k) = some p := by
      have h1 : (posts.reverse.map (fun p => p.id)).Nodup := by
        rw [List.map_reverse]
        exact List.nodup_reverse.mpr hnd
      exact find?_id_eq_of_nodup _ k h1 p (List.mem_reverse.mpr hp) hk
    have := buildPageIdToSlugMap_lookup posts emptySlugMap k
    simp only [getSlugByPageId, this, lastSlugOf, hrev, Option.map_some,
      Option.or]
    rfl
  · intro habs
    have hrev : posts.reverse.find? (fun q => q.id = k) = none := by
      rw [List.find?_eq_none]
      intro q hq
      simp only [decide_eq_true_eq]
      exact habs q (List.mem_reverse.mp hq)
    have := buildPageIdToSlugMap_lookup posts emptySlugMap k
    simp only [getSlugByPageId, this, lastSlugOf, hrev, Option.map_none,
      Option.or, emptySlugMap]
    rfl

/-- Witness for C7: two posts with distinct ids; `idA` resolves to its slug,
absent `zz` resolves to `none`, and after clearing everything is `none`. -/
theorem C7_witness :
    getSlugByPageId (buildPageIdToSlugMap [postA, postB] emptySlugMap) "idA" =
      some (PropValue.str "slug-a") ∧
    getSlugByPageId (buildPageIdToSlugMap [postA, postB] emptySlugMap) "zz" = none ∧
    getSlugByPageId clearPageIdMap "idA" = none := by
  have h := C7_theorem [postA, postB] "idA" (by decide)
  have h2 := C7_theorem [postA, postB] "zz" (by decide)
  exact ⟨h.1 postA (by decide) rfl, h2.2.1 (by decide), h.2.2⟩

/-- C2: the claim that a null/absent property yields `null` for the `date`
tag is false: the null-property switch of `getPropertyValue` has cases only
for `multi_select`, `checkbox` and `number`, so `date` falls into the
default case and yields the empty string. -/
theorem C2_counterexample :
    getPropertyValue none "date" ≠ specClaimedDefault "date" := by decide

/-- C2 (amended): for every recognized property type tag, `getPropertyValue`
applied to a null/absent raw property returns (without throwing) the empty
string for text-like tags AND for `date`, the empty list for multi-select,
`false` for checkbox, and `null` for `number` only. -/
theorem C2_theorem (type : String) (h : type ∈ recognizedTags) :
    getPropertyValue none type = codeNullDefault type := by
  fin_cases h <;> rfl

/-- Witness for C2 at the `date` and `multi_select` tags. -/
theorem C2_witness :
    ("date" ∈ recognizedTags ∧
      getPropertyValue none "date" = codeNullDefault "date") ∧
    ("multi_select" ∈ recognizedTags ∧
      getPropertyValue none "multi_select" = codeNullDefault "multi_select") :=
  ⟨⟨by decide, C2_theorem "date" (by decide)⟩,
   ⟨by decide, C2_theorem "multi_select" (by decide)⟩⟩

/-- C3: when the first record matching a slug has a status other than
`Published`, `getPostBySlug` with `requirePublished = true` logs the
not-published warning and returns `null`, never the record. -/
theorem C3_theorem (results : List RawPage) (page : RawPage) (slug : String)
    (hhead : results.head? = some page)
    (hstatus : (mkPost page).status ≠ PropValue.str "Published") :
    getPostBySlug results slug true =
      (none,
       [LogEntry.warn ("Post \"" ++ slug ++ "\" is not published (status: "
           ++ jsToString (mkPost page).status ++ ")")]) := by
  cases results with
  | nil => simp at hhead
  | cons p rest =>
    have hp : p = page := by simpa using hhead
    subst hp
    simp only [getPostBySlug]
    rw [if_pos ⟨trivial, hstatus⟩]

/-- Witness for C3: a one-record response whose status is `Draft`. -/
theorem C3_witness :
    getPostBySlug [draftPage] "hello" true =
      (none, [LogEntry.warn "Post \"hello\" is not published (status: Draft)"]) :=
  (C3_theorem [draftPage] draftPage "hello" rfl (by decide)).trans (by decide)

theorem getReadingTime_compute (fetch : String → List NotionBlock)
    (postId : String) (useCache : Bool) (st : HelperState)
    (h : useCache = false ∨ st.readingTimeCache postId = none) :
    getReadingTime fetch postId useCache st =
      ⟨((jsSplitWs (blocksToPlainText (fetch postId) none)).length + 199) / 200,
       { st with readingTimeCache := fun k =>
           if k = postId then
             some (((jsSplitWs (blocksToPlainText (fetch postId) none)).length
               + 199) / 200)
           else st.readingTimeCache k },
       true⟩ := by
  rcases h with h | h
  · subst h; rfl
  · cases useCache
    · rfl
    · simp only [getReadingTime, h]

theorem getReadingTime_hit (fetch : String → List NotionBlock)
    (postId : String) (st : HelperState) (t : Nat)
    (h : st.readingTimeCache postId = some t) :
    getReadingTime fetch postId true st = ⟨t, st, false⟩ := by
  simp only [getReadingTime, h]

/-- C4: the claim that the value computed on the compute path equals the
ceiling of the number of whitespace-separated words of the flattened
content divided by 200 (with empty content giving word count 0 and reading
time 0) is false: the code takes the length of JS `text.split(/\s+/)`,
which is `[""]` for empty text, so empty content gets word count 1 and
reading time 1.  Refuted at a fetch returning no blocks. -/
theorem C4_counterexample :
    ¬ (∀ (fetch : String → List NotionBlock) (postId : String)
        (st : HelperState),
        (getReadingTime fetch postId false st).val =
          (specWordCount (blocksToPlainText (fetch postId) none) + 199) / 200) := by
  intro h
  have h0 := h (fun _ => []) "p" initHelperState
  exact absurd h0 (by decide)

/-- C4 (amended): on the compute path (`useCache = false`, or a cache miss),
`getReadingTime` fetches the content tree, flattens it to plain text, and
returns the ceiling of (length of the JS whitespace split) / 200 — the
least `n` with `words ≤ 200 · n` — caching that value before returning; the
JS split of a string is never empty, so the result is at least 1 (empty
content gets reading time 1, not 0). -/
theorem C4_theorem (fetch : String → List NotionBlock) (postId : String)
    (useCache : Bool) (st : HelperState)
    (h : useCache = false ∨ st.readingTimeCache postId = none) :
    (getReadingTime fetch postId useCache st).fetched = true ∧
    (getReadingTime fetch postId useCache st).state.readingTimeCache postId =
      some (getReadingTime fetch postId useCache st).val ∧
    jsWordCount (blocksToPlainText (fetch postId) none) ≤
      200 * (getReadingTime fetch postId useCache st).val ∧
    (∀ m, jsWordCount (blocksToPlainText (fetch postId) none) ≤ 200 * m →
      (getReadingTime fetch postId useCache st).val ≤ m) ∧
    1 ≤ (getReadingTime fetch postId useCache st).val := by
  rw [getReadingTime_compute fetch postId useCache st h]
  dsimp only
  have hwc : jsWordCount (blocksToPlainText (fetch postId) none) =
      (jsSplitWs (blocksToPlainText (fetch postId) none)).length := rfl
  have hpos := one_le_jsWordCount (blocksToPlainText (fetch postId) none)
  refine ⟨rfl, by simp, ?_, ?_, ?_⟩
  · rw [hwc]; omega
  · intro m hm; rw [hwc] at hm; omega
  · rw [hwc] at hpos; omega

/-- Witness for C4: an empty fetch with caching off; the call fetches,
returns 1, and caches 1. -/
theorem C4_witness :
    (getReadingTime (fun _ => []) "p" false initHelperState).fetched = true ∧
    (getReadingTime (fun _ => []) "p" false initHelperState).val = 1 ∧
    (getReadingTime (fun _ => []) "p" false
        initHelperState).state.readingTimeCache "p" = some 1 :=
  ⟨(C4_theorem (fun _ => []) "p" false initHelperState (Or.inl rfl)).1,
   by decide, by decide⟩

/-- C8: `getReadingTime` is idempotent under `useCache = true`: from any
cache state, a second consecutive call for the same identifier returns the
value of the first call and performs no content fetch; with
`useCache = false` every call fetches. -/
theorem C8_theorem (fetch : String → List NotionBlock) (postId : String)
    (st : HelperState) :
    ((getReadingTime fetch postId true
        (getReadingTime fetch postId true st).state).val =
      (getReadingTime fetch postId true st).val ∧
     (getReadingTime fetch postId true
        (getReadingTime fetch postId true st).state).fetched = false) ∧
    (∀ st2 : HelperState,
      (getReadingTime fetch postId false st2).fetched = true) := by
  constructor
  · cases hc : st.readingTimeCache postId with
    | some t =>
      rw [getReadingTime_hit fetch postId st t hc]
      rw [getReadingTime_hit fetch postId st t hc]
      exact ⟨rfl, rfl⟩
    | none =>
      rw [getReadingTime_compute fetch postId true st (Or.inr hc)]
      dsimp only
      rw [getReadingTime_hit fetch postId
        { st with readingTimeCache := fun k =>
            if k = postId then
              some (((jsSplitWs (blocksToPlainText (fetch postId) none)).length
                + 199) / 200)
            else st.readingTimeCache k }
        (((jsSplitWs (blocksToPlainText (fetch postId) none)).length + 199) / 200)
        (by simp)]
      exact ⟨rfl, rfl⟩
  · intro st2
    rw [getReadingTime_compute fetch postId false st2 (Or.inl rfl)]

theorem getTableOfContents_compute (fetch : String → List NotionBlock)
    (postId : String) (useCache : Bool) (st : HelperState)
    (h : useCache = false ∨ st.tableOfContentsCache postId = none) :
    getTableOfContents fetch postId useCache st =
      ⟨((fetch postId).filter (fun block => isHeadingType block.btype)).map
         (fun block =>
           { id := block.id
             level := headingLevelOf block.btype
             text := getTextFromBlock (some block) }),
       { st with tableOfContentsCache := fun k =>
           if k = postId then
             some (((fetch postId).filter
                 (fun block => isHeadingType block.btype)).map
               (fun block =>
                 { id := block.id
                   level := headingLevelOf block.btype
                   text := getTextFromBlock (some block) }))
           else st.tableOfContentsCache k },
       true⟩ := by
  rcases h with h | h
  · subst h; rfl
  · cases useCache
    · rfl
    · simp only [getTableOfContents, h]

theorem toc_filter_map_eq (bs : List NotionBlock) :
    (bs.filter (fun block => isHeadingType block.btype)).map
      (fun block =>
        ({ id := block.id
           level := headingLevelOf block.btype
           text := getTextFromBlock (some block) } : TocEntry)) =
    headingEntriesOf bs := by
  induction bs with
  | nil => rfl
  | cons b t ih =>
    have hstep : headingEntriesOf (b :: t) =
        (if b.btype = "heading_1" then
           [{ id := b.id, level := 1, text := getTextFromBlock (some b) }]
         else if b.btype = "heading_2" then
           [{ id := b.id, level := 2, text := getTextFromBlock (some b) }]
         else if b.btype = "heading_3" then
           [{ id := b.id, level := 3, text := getTextFromBlock (some b) }]
         else []) ++ headingEntriesOf t := rfl
    rw [hstep]
    by_cases h1 : b.btype = "heading_1"
    · have hc : isHeadingType b.btype = true := by rw [h1]; decide
      have hl : headingLevelOf b.btype = 1 := by rw [h1]; decide
      rw [if_pos h1]
      simp [List.filter_cons, hc, hl, ih]
    · by_cases h2 : b.btype = "heading_2"
      · have hc : isHeadingType b.btype = true := by rw [h2]; decide
        have hl : headingLevelOf b.btype = 2 := by rw [h2]; decide
        rw [if_neg h1, if_pos h2]
        simp [List.filter_cons, hc, hl, ih]
      · by_cases h3 : b.btype = "heading_3"
        · have hc : isHeadingType b.btype = true := by rw [h3]; decide
          have hl : headingLevelOf b.btype = 3 := by rw [h3]; decide
          rw [if_neg h1, if_neg h2, if_pos h3]
          simp [List.filter_cons, hc, hl, ih]
        · have hc : isHeadingType b.btype = false := by
            simp [isHeadingType, h1, h2, h3]
          rw [if_neg h1, if_neg h2, if_neg h3]
          simp [List.filter_cons, hc, ih]

/-- C5: the claim that `getTableOfContents` returns the heading entries of
the flattened content tree is false: the code filters only the top-level
block list and never descends into `children`, so a heading nested under a
toggle block is missing from the result while the flattened tree contains
it. -/
theorem C5_counterexample :
    ¬ (∀ (fetch : String → List NotionBlock) (postId : String)
        (st : HelperState),
        (getTableOfContents fetch postId false st).val =
          specFlattenedHeadings (fetch postId)) := by
  intro h
  have h0 := h (fun _ => nestedHeadingBlocks) "p" initHelperState
  exact absurd h0 (by decide)

/-- C5 (amended): on the compute path, `getTableOfContents` returns exactly
the heading entries of levels 1–3 among the TOP-LEVEL blocks of the content
tree, in document order, each with the block identifier, numeric level
parsed from the type tag, and heading text; headings nested in children of
other blocks are not included.  The result is cached before returning. -/
theorem C5_theorem (fetch : String → List NotionBlock) (postId : String)
    (useCache : Bool) (st : HelperState)
    (h : useCache = false ∨ st.tableOfContentsCache postId = none) :
    (getTableOfContents fetch postId useCache st).val =
      headingEntriesOf (fetch postId) ∧
    (getTableOfContents fetch postId useCache st).fetched = true ∧
    (getTableOfContents fetch postId useCache st).state.tableOfContentsCache
        postId = some (getTableOfContents fetch postId useCache st).val := by
  rw [getTableOfContents_compute fetch postId useCache st h]
  dsimp only
  exact ⟨toc_filter_map_eq (fetch postId), rfl, by simp⟩

/-- Witness for C5: the spec's example — one level-1 and two level-2
headings interspersed with paragraphs — yields exactly three entries with
levels [1, 2, 2], in document order. -/
theorem C5_witness :
    (getTableOfContents (fun _ => blocks122) "p" false initHelperState).val =
      [{ id := "h1", level := 1, text := "Intro" },
       { id := "h2", level := 2, text := "Part one" },
       { id := "h3", level := 2, text := "Part two" }] :=
  ((C5_theorem (fun _ => blocks122) "p" false initHelperState
      (Or.inl rfl)).1).trans (by decide)

/-- C6: `handleNotionError` passes a successful result through unmodified
and logs nothing; a failure is logged exactly once with its message, code
and status, and re-signals as a single error whose message carries the
operation name and the original message — a thrown error, never a silent
swallow. -/
theorem C6_theorem (α : Type) (operation : String) (a : α)
    (e : NotionErrorInfo) :
    handleNotionError operation (Except.ok a) =
      (Except.ok a, ([] : List LogEntry)) ∧
    handleNotionError operation (Except.error e : Except NotionErrorInfo α) =
      (Except.error ("Failed to " ++ operation ++ ": " ++ e.message),
       [LogEntry.errorCtx operation e.message e.code e.status]) :=
  ⟨rfl, rfl⟩

/-- C9: every derived view — by-category, by-tag, featured, recent — is a
subsequence of the fetched post list in the same relative order, and
`getRecentPosts` is exactly the first `min limit length` posts. -/
theorem C9_theorem (posts : List BlogPost) (category tag : String)
    (limit : Nat) :
    (getPostsByCategory posts category).Sublist posts ∧
    (getPostsByTag posts tag).Sublist posts ∧
    (getFeaturedPosts posts).Sublist posts ∧
    (getRecentPosts posts limit).Sublist posts ∧
    getRecentPosts posts limit = posts.take limit ∧
    (getRecentPosts posts limit).length = min limit posts.length :=
  ⟨List.filter_sublist posts, List.filter_sublist posts,
   List.filter_sublist posts, List.take_sublist limit posts, rfl,
   List.length_take limit posts⟩

theorem multiSelect_isList (p : Option RawProperty) :
    ∃ xs, getPropertyValue p "multi_select" = PropValue.strList xs := by
  cases p with
  | none => exact ⟨[], rfl⟩
  | some q =>
    have hred : getPropertyValue (some q) "multi_select" =
        (match q.multi_select with
         | some opts => PropValue.strList (opts.map (fun s => s.name))
         | none => PropValue.strList []) := rfl
    cases hq : q.multi_select with
    | none => exact ⟨[], by rw [hred, hq]⟩
    | some opts => exact ⟨opts.map (fun s => s.name), by rw [hred, hq]⟩

/-- C10: for every post found by `getPostSEOMetadata`, the returned
keywords equal the post's `seoKeywords` list in every case — the tags
fallback branch is unreachable, because the mapper turns the `SEO Keywords`
multi-select into an array (`[]` when absent), and arrays are truthy in
JS. -/
theorem C10_theorem (results : List RawPage) (slug siteUrl : String)
    (post : BlogPost) (meta : SEOMetadata)
    (hpost : (getPostBySlug results slug true).1 = some post)
    (hmeta : getPostSEOMetadata results slug siteUrl = some meta) :
    meta.keywords = post.seoKeywords ∧
    ∃ xs, post.seoKeywords = PropValue.strList xs := by
  have hsk : ∃ xs, post.seoKeywords = PropValue.strList xs := by
    cases results with
    | nil => simp [getPostBySlug] at hpost
    | cons page rest =>
      simp only [getPostBySlug] at hpost
      split at hpost
      · simp at hpost
      · have hp : post = mkPost page := by simpa using hpost.symm
        rw [hp]
        exact multiSelect_isList (page.properties "SEO Keywords")
  obtain ⟨xs, hxs⟩ := hsk
  have hm2 : getPostSEOMetadata results slug siteUrl =
      some { title := jsOr post.seoTitle post.title
             description := jsOr post.description (PropValue.str "")
             keywords := jsOr post.seoKeywords post.tags
             ogImage := jsOr post.coverImage
               (PropValue.str (siteUrl ++ "/og-default.png"))
             canonical := PropValue.str (siteUrl ++ "/posts/" ++ slug) } := by
    unfold getPostSEOMetadata
    rw [hpost]
  rw [hm2] at hmeta
  injection hmeta with hmeq
  subst hmeq
  refine ⟨?_, ⟨xs, hxs⟩⟩
  show jsOr post.seoKeywords post.tags = post.seoKeywords
  rw [hxs]
  rfl

/-- Witness for C10: a published page with no `SEO Keywords` property; the
metadata's keywords are the mapper's empty list, not the page's tags. -/
theorem C10_witness :
    ({ title := PropValue.str "", description := PropValue.str "",
       keywords := PropValue.strList [],
       ogImage := PropValue.str "https://s/og-default.png",
       canonical := PropValue.str "https://s/posts/hello" } : SEOMetadata).keywords
      = (mkPost publishedPage).seoKeywords ∧
    (mkPost publishedPage).seoKeywords = PropValue.strList [] ∧
    (mkPost publishedPage).tags = PropValue.strList ["go", "rust"] :=
  ⟨(C10_theorem [publishedPage] "hello" "https://s" (mkPost publishedPage)
      { title := PropValue.str "", description := PropValue.str "",
        keywords := PropValue.strList [],
        ogImage := PropValue.str "https://s/og-default.png",
        canonical := PropValue.str "https://s/posts/hello" }
      (by decide) (by decide)).1,
   by decide, by decide⟩
